import Mathlib

/-!
Verification of the repository-synchronization engine of the
`rpm-package-function` repository (Python) against its natural-language
specification.

The development shallowly embeds the relevant source code:

* `rpm_package_function/rpmpackage.py` — package identity extraction
  (`BaseRpmPackage._package_info`), local and remote package handles and
  their `move` operations;
* `rpm_package_function/organiser.py` — the path classifier
  (`DistributionPathMixin.get_path`) and the organisers;
* `rpm_package_function/repomanager.py` — the synchronizer
  (`AzureBaseRepository`: `_skip_blob`, `list_all_packages`,
  `list_all_package_paths`, `check_metadata`, `create_metadata`,
  `merge_metadata`, `process`).

Blob storage is modelled as a finite association list of keys to blobs
carrying an opaque content identifier, a last-modified string and a
metadata tag map, together with a logical clock producing fresh
last-modified values.  Storage mutations are recorded as an explicit
event trace.  External collaborators (the createrepo fragment generator,
the mergerepo merger, and the RPM header parser) are parameters, per the
spec's external-interface contracts; they are modelled on their success
paths, which is where every claim under study lives.
-/

/-! ### Characters

The source applies Python regular expressions to release strings.  We
restrict to the ASCII classes the patterns use: a digit for a backslash-d
atom and a lower-case letter for the class from a to z. -/

/-- ASCII digit test (the character class 0-9 used by the release patterns). -/
def isDigitC (c : Char) : Bool := decide (48 ≤ c.toNat ∧ c.toNat ≤ 57)

/-- ASCII lower-case letter test (the class a-z of the bucket pattern). -/
def isLowerC (c : Char) : Bool := decide (97 ≤ c.toNat ∧ c.toNat ≤ 122)

/-- Dot test, used to embed the class of all characters other than a dot. -/
def isDotC (c : Char) : Bool := decide (c.toNat = 46)

/-! ### Package identity extraction

`BaseRpmPackage._package_info` (rpmpackage.py lines 50-86) applies the
regex of the form caret, one or more digits, a literal dot, then a
captured group of one or more non-dot characters, as a prefix match
(Python re.match) to the release string, and takes the captured group as
the distribution tag when the match succeeds. -/

/-- Core of the distribution-tag derivation on character lists: prefix
match of one-or-more digits, a literal dot, then a captured group of
one-or-more non-dot characters (greedy, hence the maximal run). -/
def distCore (cs : List Char) : Option (List Char) :=
  let ds := cs.takeWhile isDigitC
  if ds = [] then none
  else
    match cs.drop ds.length with
    | '.' :: rest =>
      let cap := rest.takeWhile (fun c => !isDotC c)
      if cap = [] then none else some cap
    | _ => none

/-- The distribution tag derived from a release string, as in
`BaseRpmPackage._package_info`: the captured group of the prefix pattern,
or absent when the pattern does not match. -/
def distOf (r : String) : Option String :=
  (distCore r.data).map String.mk

/-- Raw header fields extracted from the RPM file by the external header
parser (name, version, release, arch); release and arch default to the
empty string when absent, as in `_package_info`. -/
structure RawHeaders where
  name : String
  version : String
  release : String
  arch : String
deriving DecidableEq

/-- The PackageInfo namedtuple of rpmpackage.py: parsed identity fields
plus the derived optional distribution tag. -/
structure PackageInfo where
  name : String
  version : String
  dist : Option String
  arch : String
  release : String
deriving DecidableEq

/-- `_package_info`: assemble the PackageInfo from raw headers, deriving
the distribution tag from the release string. -/
def packageInfo (h : RawHeaders) : PackageInfo :=
  { name := h.name, version := h.version, dist := distOf h.release,
    arch := h.arch, release := h.release }

/-! ### Path classifier

`DistributionPathMixin.get_path` (organiser.py lines 120-153) rebuilds
the filename from the parsed identity fields and buckets the package by
splitting the distribution tag with the full-match pattern: caret, a
captured group of lower-case letters, a captured group of digits, end. -/

/-- Core of the bucket split on character lists: full match of
one-or-more lower-case letters followed by one-or-more digits, returning
the two captured groups. -/
def splitDistCore (cs : List Char) : Option (List Char × List Char) :=
  let ls := cs.takeWhile isLowerC
  let rest := cs.drop ls.length
  if ls = [] then none
  else if rest ≠ [] ∧ rest.all isDigitC then some (ls, rest) else none

/-- The bucket split of a distribution tag, per the pattern in
`DistributionPathMixin.get_path`. -/
def splitDist (d : String) : Option (String × String) :=
  (splitDistCore d.data).map (fun g => (String.mk g.1, String.mk g.2))

/-- Storage paths, modelled as their slash-separated segments; the empty
list is the Python path consisting of a single dot (no parts). -/
abbrev RPath := List String

/-- The normalised filename that `get_path` rebuilds byte-for-byte from
the parsed identity fields. -/
def mkFilename (p : PackageInfo) : String :=
  p.name ++ "-" ++ p.version ++ "-" ++ p.release ++ "." ++ p.arch ++ ".rpm"

/-- `DistributionPathMixin.get_path`: the classified path of a package
under a root.  The filename comes only from the parsed identity fields;
the original upload filename is not an input. -/
def get_path (root : RPath) (p : PackageInfo) : RPath :=
  let filename := mkFilename p
  match p.dist with
  | some d =>
    match splitDist d with
    | some g => root ++ [g.1, g.2, filename]
    | none => root ++ ["rejected", filename]
  | none => root ++ ["rejected", filename]

/-- The end-anchored release pattern named by the specification: caret,
digits, a dot, lower-case letters, digits, end of string — as a full
match on the whole release string. -/
def releaseSpecPat (r : String) : Bool :=
  let cs := r.data
  let ds := cs.takeWhile isDigitC
  if ds = [] then false
  else
    match cs.drop ds.length with
    | '.' :: rest => (splitDistCore rest).isSome
    | _ => false

/-! ### List helper lemmas for the pattern proofs -/

/-- takeWhile of a list all of whose elements satisfy the predicate,
followed by an element that does not, stops exactly at the boundary. -/
theorem takeWhile_append_stop {p : α → Bool} {xs : List α} {y : α} (ys : List α)
    (hall : ∀ x ∈ xs, p x = true) (hy : p y = false) :
    (xs ++ y :: ys).takeWhile p = xs := by
  induction xs with
  | nil => simp [List.takeWhile_cons, hy]
  | cons a as ih =>
    have ha : p a = true := hall a (by simp)
    simp only [List.cons_append, List.takeWhile_cons_of_pos ha]
    have := ih (fun x hx => hall x (by simp [hx]))
    rw [this]

/-- takeWhile of a list all of whose elements satisfy the predicate is
the whole list. -/
theorem takeWhile_eq_self_of_forall {p : α → Bool} {xs : List α}
    (hall : ∀ x ∈ xs, p x = true) : xs.takeWhile p = xs := by
  induction xs with
  | nil => rfl
  | cons a as ih =>
    have ha : p a = true := hall a (by simp)
    simp only [List.takeWhile_cons_of_pos ha]
    rw [ih (fun x hx => hall x (by simp [hx]))]

/-- A digit is not a dot. -/
theorem isDigit_not_dot {c : Char} (h : isDigitC c = true) : isDotC c = false := by
  simp only [isDigitC, decide_eq_true_eq] at h
  simp only [isDotC, decide_eq_false_iff_not]
  omega

/-- A lower-case letter is not a dot. -/
theorem isLower_not_dot {c : Char} (h : isLowerC c = true) : isDotC c = false := by
  simp only [isLowerC, decide_eq_true_eq] at h
  simp only [isDotC, decide_eq_false_iff_not]
  omega

/-- A digit is not a lower-case letter. -/
theorem isDigit_not_lower {c : Char} (h : isDigitC c = true) : isLowerC c = false := by
  simp only [isDigitC, decide_eq_true_eq] at h
  simp only [isLowerC, decide_eq_false_iff_not]
  omega

/-- The dot character is not a digit. -/
theorem dot_not_digit : isDigitC '.' = false := by decide

/-- On a release of the shape digits, dot, letters, digits, the derived
distribution tag is exactly the letters-and-digits suffix. -/
theorem distCore_of_shape {d l n : List Char}
    (hd : d ≠ []) (hdall : ∀ c ∈ d, isDigitC c = true)
    (hlall : ∀ c ∈ l, isLowerC c = true) (hnall : ∀ c ∈ n, isDigitC c = true)
    (hln : l ++ n ≠ []) :
    distCore (d ++ '.' :: (l ++ n)) = some (l ++ n) := by
  have htake : (d ++ '.' :: (l ++ n)).takeWhile isDigitC = d :=
    takeWhile_append_stop _ hdall dot_not_digit
  have hdrop : (d ++ '.' :: (l ++ n)).drop d.length = '.' :: (l ++ n) :=
    List.drop_left d ('.' :: (l ++ n))
  have hcap : (l ++ n).takeWhile (fun c => !isDotC c) = l ++ n := by
    apply takeWhile_eq_self_of_forall
    intro x hx
    rcases List.mem_append.mp hx with h1 | h2
    · simp [isLower_not_dot (hlall x h1)]
    · simp [isDigit_not_dot (hnall x h2)]
  simp [distCore, htake, hdrop, hcap, hd, hln]

/-- On a tag of the shape letters then digits (both non-empty), the
bucket split captures exactly the letter group and the digit group. -/
theorem splitDistCore_of_shape {l n : List Char}
    (hl : l ≠ []) (hn : n ≠ [])
    (hlall : ∀ c ∈ l, isLowerC c = true) (hnall : ∀ c ∈ n, isDigitC c = true) :
    splitDistCore (l ++ n) = some (l, n) := by
  obtain ⟨y, ys, rfl⟩ := List.exists_cons_of_ne_nil hn
  have hy : isLowerC y = false := isDigit_not_lower (hnall y (by simp))
  have htake : (l ++ y :: ys).takeWhile isLowerC = l :=
    takeWhile_append_stop _ hlall hy
  have hdrop : (l ++ y :: ys).drop l.length = y :: ys := List.drop_left l (y :: ys)
  have hall : (y :: ys).all isDigitC = true := by
    simp only [List.all_eq_true]
    exact hnall
  simp only [splitDistCore, htake, hdrop, hl, if_false]
  simp [hall]

/-! ### Claims C4 and C5 — path classification -/

/-- C4 counterexample: the release string 1.cm2.5 (a minor-bump release,
explicitly anticipated by the source comments) does not match the
end-anchored pattern the claim names, yet the classifier places it in
the cm/2 bucket, not in rejected. -/
theorem c4_counterexample :
    releaseSpecPat "1.cm2.5" = false ∧
    get_path []
        (packageInfo { name := "a", version := "1.0", release := "1.cm2.5", arch := "x86_64" }) =
      ["cm", "2", "a-1.0-1.cm2.5.x86_64.rpm"] := by
  constructor
  · decide
  · decide

/-- C4 (amended): whenever the derived distribution tag is absent, or
present but not a full match of letters-then-digits, the classifier
places the package in the rejected bucket. -/
theorem c4_rejected_of_no_bucket (root : RPath) (h : RawHeaders)
    (hb : (distOf h.release).bind splitDist = none) :
    get_path root (packageInfo h) = root ++ ["rejected", mkFilename (packageInfo h)] := by
  unfold get_path
  cases hdist : distOf h.release with
  | none => simp [packageInfo, hdist]
  | some d =>
    rw [hdist] at hb
    have hb' : splitDist d = none := hb
    simp [packageInfo, hdist, hb']

/-- C4 witness: the empty release string has no distribution tag and is
classified into rejected. -/
theorem c4_witness :
    (distOf "").bind splitDist = none ∧
    get_path []
        (packageInfo { name := "b", version := "2", release := "", arch := "noarch" }) =
      ["rejected", "b-2-.noarch.rpm"] :=
  ⟨by decide, by rw [c4_rejected_of_no_bucket [] _ (by decide)]; decide⟩

/-- C5: for a release of the shape digits, dot, letters, digits (the
end-anchored pattern of the claim), the derived distribution tag is the
captured letters-and-digits suffix and the classifier returns
root, letters, digits, filename, with the filename rebuilt from the
parsed identity fields alone. -/
theorem c5_valid_release_bucket (root : RPath) (nm vr ar : String)
    (d l n : List Char)
    (hd : d ≠ []) (hl : l ≠ []) (hn : n ≠ [])
    (hdall : ∀ c ∈ d, isDigitC c = true)
    (hlall : ∀ c ∈ l, isLowerC c = true)
    (hnall : ∀ c ∈ n, isDigitC c = true) :
    distOf (String.mk (d ++ '.' :: (l ++ n))) = some (String.mk (l ++ n)) ∧
    get_path root
        (packageInfo
          { name := nm, version := vr, release := String.mk (d ++ '.' :: (l ++ n)), arch := ar }) =
      root ++ [String.mk l, String.mk n,
        nm ++ "-" ++ vr ++ "-" ++ String.mk (d ++ '.' :: (l ++ n)) ++ "." ++ ar ++ ".rpm"] := by
  have hln : l ++ n ≠ [] := by
    intro hcontra
    exact hl (List.append_eq_nil.mp hcontra).1
  have hdist : distOf (String.mk (d ++ '.' :: (l ++ n))) = some (String.mk (l ++ n)) := by
    unfold distOf
    rw [show (String.mk (d ++ '.' :: (l ++ n))).data = d ++ '.' :: (l ++ n) from rfl]
    rw [distCore_of_shape hd hdall hlall hnall hln]
    rfl
  refine ⟨hdist, ?_⟩
  unfold get_path
  simp only [packageInfo, hdist]
  have hsplit : splitDist (String.mk (l ++ n)) = some (String.mk l, String.mk n) := by
    unfold splitDist
    rw [show (String.mk (l ++ n)).data = l ++ n from rfl]
    rw [splitDistCore_of_shape hl hn hlall hnall]
    rfl
  simp [hsplit, mkFilename]

/-- C5 witness: the release 1.cm2 derives the tag cm2 and classifies
into the cm, 2 bucket with the rebuilt filename. -/
theorem c5_witness :
    distOf (String.mk (['1'] ++ '.' :: (['c', 'm'] ++ ['2']))) =
        some (String.mk (['c', 'm'] ++ ['2'])) ∧
    get_path [] (packageInfo
        { name := "first", version := "1.0",
          release := String.mk (['1'] ++ '.' :: (['c', 'm'] ++ ['2'])), arch := "x86_64" }) =
      [String.mk ['c', 'm'], String.mk ['2'],
        "first" ++ "-" ++ "1.0" ++ "-" ++ String.mk (['1'] ++ '.' :: (['c', 'm'] ++ ['2'])) ++
          "." ++ "x86_64" ++ ".rpm"] :=
  c5_valid_release_bucket [] "first" "1.0" "x86_64" ['1'] ['c', 'm'] ['2']
    (by decide) (by decide) (by decide) (by decide) (by decide) (by decide)

/-! ### Paths

Blob names are strings; the source wraps them in pathlib Paths.  We model
a Path as its list of segments (`RPath`) and embed the pathlib operations
the source uses: str(), name, parent, with_suffix. -/

/-- Core of splitting a string on slashes; the accumulator holds the
current segment reversed. -/
def splitSlash : List Char → List Char → List String
  | [], acc => [String.mk acc.reverse]
  | c :: rest, acc =>
    if c = '/' then String.mk acc.reverse :: splitSlash rest []
    else splitSlash rest (c :: acc)

/-- Parse a blob name into path segments, as pathlib does; the one-dot
string is the empty path. -/
def pathOfString (s : String) : RPath :=
  if s = "." then [] else splitSlash s.data []

/-- Python str() of a Path: a dot for the empty path, otherwise the
segments joined with slashes. -/
def pathStr : RPath → String
  | [] => "."
  | [a] => a
  | a :: rest => a ++ "/" ++ pathStr rest

/-- Final component of a path (pathlib name). -/
def pathName (p : RPath) : String := p.getLastD ""

/-- Parent of a path (pathlib parent, as its parts). -/
def pathParent (p : RPath) : RPath := p.dropLast

/-- Suffix of a filename, as pathlib computes it: the part from the last
dot, provided that dot is neither the first nor the last character. -/
def fileSuffix (name : String) : String :=
  let rev := name.data.reverse
  let ext := rev.takeWhile (fun c => !isDotC c)
  if ext ≠ [] ∧ ext.length + 1 < rev.length then String.mk ('.' :: ext.reverse) else ""

/-- Replace the suffix of a filename (pathlib with_suffix on the name). -/
def withSuffixName (name new : String) : String :=
  String.mk (name.data.take (name.data.length - (fileSuffix name).data.length)) ++ new

/-- Path.with_suffix: replace the suffix of the final component. -/
def withSuffixPath (p : RPath) (new : String) : RPath :=
  p.dropLast ++ [withSuffixName (p.getLastD "") new]

/-! ### Blob storage model

The object store of the spec's external-interface section: named blobs
carrying an opaque content identifier, a last-modified timestamp
(rendered as an opaque string by a logical clock) and a metadata tag
map.  Uploading, copying and setting metadata stamp a fresh
last-modified value.  Mutations are recorded as events. -/

/-- A stored blob: content identifier, last-modified string, metadata tags. -/
structure Blob where
  content : Nat
  lastModified : String
  tags : List (String × String)
deriving DecidableEq

/-- The blob container: an association list of blob names to blobs plus
the logical clock that mints last-modified stamps. -/
structure Store where
  blobs : List (String × Blob)
  clock : Nat
deriving DecidableEq

/-- Association-list lookup of a blob by name. -/
def findBlob : List (String × Blob) → String → Option Blob
  | [], _ => none
  | kv :: rest, k => if kv.1 = k then some kv.2 else findBlob rest k

/-- BlobClient.exists. -/
def Store.existsKey (s : Store) (k : String) : Bool := (findBlob s.blobs k).isSome

/-- String prefix test used by list_blobs with name_starts_with. -/
def strHasPre (p k : String) : Bool := p.data.isPrefixOf k.data

/-- ContainerClient.list_blobs: all blob names, optionally filtered to
those starting with a prefix string. -/
def Store.listKeys (s : Store) (pre : Option String) : List String :=
  match pre with
  | none => s.blobs.map Prod.fst
  | some p => (s.blobs.map Prod.fst).filter (fun k => strHasPre p k)

/-- upload_blob with overwrite: replace or create the blob with fresh
content, a fresh last-modified stamp and no metadata. -/
def Store.putBlob (s : Store) (k : String) (c : Nat) : Store :=
  { blobs := s.blobs.filter (fun kv => kv.1 != k) ++
      [(k, { content := c, lastModified := Nat.repr s.clock, tags := [] })],
    clock := s.clock + 1 }

/-- start_copy_from_url: the destination receives the source's content
and tags with a fresh last-modified stamp.  The caller (move) has
checked that the source exists; a missing source is modelled as a no-op. -/
def Store.copyBlob (s : Store) (src dst : String) : Store :=
  match findBlob s.blobs src with
  | none => s
  | some b =>
    { blobs := s.blobs.filter (fun kv => kv.1 != dst) ++
        [(dst, { content := b.content, lastModified := Nat.repr s.clock, tags := b.tags })],
      clock := s.clock + 1 }

/-- delete_blob, per the spec's collaborator contract delete(key) -> void. -/
def Store.delBlob (s : Store) (k : String) : Store :=
  { blobs := s.blobs.filter (fun kv => kv.1 != k), clock := s.clock }

/-- set_blob_metadata: replace the blob's user metadata wholesale,
refreshing its last-modified stamp. -/
def Store.setMetadata (s : Store) (k : String) (md : List (String × String)) : Store :=
  { blobs := s.blobs.map (fun kv =>
      if kv.1 = k then
        (kv.1, { content := kv.2.content, lastModified := Nat.repr s.clock, tags := md })
      else kv),
    clock := s.clock + 1 }

/-- Observable storage mutations, in execution order. -/
inductive StorageEvent where
  | put (key : String) (content : Nat)
  | copy (src dst : String)
  | delete (key : String)
  | setMeta (key : String) (tags : List (String × String))
deriving DecidableEq

/-- Errors surfaced by the storage layer: FileExistsError raised by the
remote move's collision check, and the not-found error of a property or
download request on a missing blob. -/
inductive StorageErr where
  | fileExists (key : String)
  | blobNotFound (key : String)
deriving DecidableEq

/-- get_blob_properties (and download_blob): the blob, or a not-found
error. -/
def getProps (s : Store) (k : String) : Except StorageErr Blob :=
  match findBlob s.blobs k with
  | some b => Except.ok b
  | none => Except.error (StorageErr.blobNotFound k)

/-- Lookup in a metadata tag map. -/
def tagLookup : List (String × String) → String → Option String
  | [], _ => none
  | kv :: rest, k => if kv.1 = k then some kv.2 else tagLookup rest k

/-! ### Remote package handles

`RemoteRpmPackage` (rpmpackage.py lines 147-235): a storage path plus the
lazily downloaded, cached local copy, modelled by its parsed identity.
Accessors report whether they had to download (the Bool component). -/

/-- A remote package handle: its blob path and the cached local parse. -/
structure RemoteRpmPackage where
  path : RPath
  localPackage : Option PackageInfo
deriving DecidableEq

/-- RemoteRpmPackage._get_package: return the cached local copy, or
download the blob at the handle's path, parse it, and cache it.  The
Bool reports whether a download happened. -/
def RemoteRpmPackage.getPackage (parse : Nat → RawHeaders) (s : Store)
    (h : RemoteRpmPackage) :
    Except StorageErr (PackageInfo × RemoteRpmPackage × Bool) :=
  match h.localPackage with
  | some lp => Except.ok (lp, h, false)
  | none =>
    match findBlob s.blobs (pathStr h.path) with
    | some b =>
      let lp := packageInfo (parse b.content)
      Except.ok (lp, { h with localPackage := some lp }, true)
    | none => Except.error (StorageErr.blobNotFound (pathStr h.path))

/-- RemoteRpmPackage.name. -/
def RemoteRpmPackage.nameAcc (parse : Nat → RawHeaders) (s : Store)
    (h : RemoteRpmPackage) : Except StorageErr (String × RemoteRpmPackage × Bool) :=
  (h.getPackage parse s).map (fun r => (r.1.name, r.2.1, r.2.2))

/-- RemoteRpmPackage.version. -/
def RemoteRpmPackage.versionAcc (parse : Nat → RawHeaders) (s : Store)
    (h : RemoteRpmPackage) : Except StorageErr (String × RemoteRpmPackage × Bool) :=
  (h.getPackage parse s).map (fun r => (r.1.version, r.2.1, r.2.2))

/-- RemoteRpmPackage.dist. -/
def RemoteRpmPackage.distAcc (parse : Nat → RawHeaders) (s : Store)
    (h : RemoteRpmPackage) : Except StorageErr (Option String × RemoteRpmPackage × Bool) :=
  (h.getPackage parse s).map (fun r => (r.1.dist, r.2.1, r.2.2))

/-- RemoteRpmPackage.arch. -/
def RemoteRpmPackage.archAcc (parse : Nat → RawHeaders) (s : Store)
    (h : RemoteRpmPackage) : Except StorageErr (String × RemoteRpmPackage × Bool) :=
  (h.getPackage parse s).map (fun r => (r.1.arch, r.2.1, r.2.2))

/-- RemoteRpmPackage.release. -/
def RemoteRpmPackage.releaseAcc (parse : Nat → RawHeaders) (s : Store)
    (h : RemoteRpmPackage) : Except StorageErr (String × RemoteRpmPackage × Bool) :=
  (h.getPackage parse s).map (fun r => (r.1.release, r.2.1, r.2.2))

/-- RemoteRpmPackage.move (rpmpackage.py lines 210-228): raise
FileExistsError when the destination exists, else copy the blob to the
new location, delete the old blob, and update the handle's path. -/
def RemoteRpmPackage.move (h : RemoteRpmPackage) (s : Store) (newKey : String) :
    Except StorageErr (Store × RemoteRpmPackage × List StorageEvent) :=
  if Store.existsKey s newKey then Except.error (StorageErr.fileExists newKey)
  else
    match findBlob s.blobs (pathStr h.path) with
    | none => Except.error (StorageErr.blobNotFound (pathStr h.path))
    | some _ =>
      let s1 := Store.copyBlob s (pathStr h.path) newKey
      let s2 := Store.delBlob s1 (pathStr h.path)
      Except.ok (s2, { path := pathOfString newKey, localPackage := h.localPackage },
        [StorageEvent.copy (pathStr h.path) newKey, StorageEvent.delete (pathStr h.path)])

/-! ### Claim C10 — move is a frame on everything but the path -/

/-- C10: a successful move changes only the handle's storage path: the
cached local copy is retained, and afterwards every identity accessor
answers from the cache with no download and no re-parse (the Bool
component is false) and returns the same parsed values as before. -/
theorem c10_move_preserves_identity (parse : Nat → RawHeaders) (s : Store)
    (h : RemoteRpmPackage) (newKey : String) (lp : PackageInfo)
    (s' : Store) (h' : RemoteRpmPackage) (evs : List StorageEvent)
    (hc : h.localPackage = some lp)
    (hm : h.move s newKey = Except.ok (s', h', evs)) :
    h' = { path := pathOfString newKey, localPackage := some lp } ∧
    h'.nameAcc parse s' = Except.ok (lp.name, h', false) ∧
    h'.versionAcc parse s' = Except.ok (lp.version, h', false) ∧
    h'.distAcc parse s' = Except.ok (lp.dist, h', false) ∧
    h'.archAcc parse s' = Except.ok (lp.arch, h', false) ∧
    h'.releaseAcc parse s' = Except.ok (lp.release, h', false) := by
  unfold RemoteRpmPackage.move at hm
  split at hm
  · simp at hm
  · split at hm
    · simp at hm
    · simp only [Except.ok.injEq, Prod.mk.injEq] at hm
      obtain ⟨-, hh, -⟩ := hm
      have hh' : h' = { path := pathOfString newKey, localPackage := some lp } := by
        rw [← hh, hc]
      refine ⟨hh', ?_, ?_, ?_, ?_, ?_⟩ <;>
        simp [RemoteRpmPackage.nameAcc, RemoteRpmPackage.versionAcc,
          RemoteRpmPackage.distAcc, RemoteRpmPackage.archAcc,
          RemoteRpmPackage.releaseAcc, RemoteRpmPackage.getPackage, Except.map, hh']

/-- Concrete parsed identity used by witnesses. -/
def exInfo : PackageInfo :=
  { name := "a", version := "1.0", dist := some "cm2", arch := "x86_64", release := "1.cm2" }

/-- Trivial header parser used where the parse result is irrelevant. -/
def exParseTriv : Nat → RawHeaders :=
  fun _ => { name := "", version := "", release := "", arch := "" }

/-- Concrete store for the move witness: the source blob exists, the
destination does not. -/
def exMoveStore : Store :=
  { blobs := [("upload/x.rpm", { content := 5, lastModified := "0", tags := [] })], clock := 1 }

/-- Handle before the move, with a cached local parse. -/
def exMoveH : RemoteRpmPackage := { path := ["upload", "x.rpm"], localPackage := some exInfo }

/-- Store after the concrete move: copy then delete. -/
def exMoveS2 : Store :=
  Store.delBlob (Store.copyBlob exMoveStore "upload/x.rpm" "a/x.rpm") "upload/x.rpm"

/-- Handle after the concrete move. -/
def exMoveH2 : RemoteRpmPackage :=
  { path := pathOfString "a/x.rpm", localPackage := some exInfo }

/-- C10 witness: the concrete move keeps the cache and every accessor
answers from it without downloading. -/
theorem c10_witness :
    exMoveH2 = { path := pathOfString "a/x.rpm", localPackage := some exInfo } ∧
    exMoveH2.nameAcc exParseTriv exMoveS2 = Except.ok (exInfo.name, exMoveH2, false) ∧
    exMoveH2.versionAcc exParseTriv exMoveS2 = Except.ok (exInfo.version, exMoveH2, false) ∧
    exMoveH2.distAcc exParseTriv exMoveS2 = Except.ok (exInfo.dist, exMoveH2, false) ∧
    exMoveH2.archAcc exParseTriv exMoveS2 = Except.ok (exInfo.arch, exMoveH2, false) ∧
    exMoveH2.releaseAcc exParseTriv exMoveS2 = Except.ok (exInfo.release, exMoveH2, false) :=
  c10_move_preserves_identity exParseTriv exMoveStore exMoveH "a/x.rpm" exInfo
    exMoveS2 exMoveH2
    [StorageEvent.copy "upload/x.rpm" "a/x.rpm", StorageEvent.delete "upload/x.rpm"]
    rfl rfl

/-! ### Synchronizer — blob scanning

`AzureBaseRepository._skip_blob`, `list_all_packages` and
`list_all_package_paths` (repomanager.py lines 58-110). -/

/-- The metadata tag key holding the package's recorded last-modified. -/
def METADATA_CHECK_KEY : String := "RpmLastModified"

/-- `_skip_blob`: skip a blob unless its name ends in the package
extension, and skip any blob sitting directly under an upload or a
rejected path segment. -/
def skip_blob (p : RPath) : Bool :=
  if fileSuffix (pathName p) ≠ ".rpm" then true
  else if pathParent p ≠ [] ∧ (pathParent p).getLastD "" = "upload" then true
  else if pathParent p ≠ [] ∧ (pathParent p).getLastD "" = "rejected" then true
  else false

/-- `list_all_packages`: a fresh remote handle for every non-skipped blob. -/
def list_all_packages (s : Store) : List RemoteRpmPackage :=
  (Store.listKeys s none).filterMap (fun k =>
    let p := pathOfString k
    if skip_blob p then none else some { path := p, localPackage := none })

/-- `list_all_package_paths`: the set of parents of non-skipped blobs
(the Python set is modelled as a deduplicated list). -/
def list_all_package_paths (s : Store) : List RPath :=
  ((Store.listKeys s none).filterMap (fun k =>
    let p := pathOfString k
    if skip_blob p then none else some (pathParent p))).dedup

/-! ### Synchronizer — fragment staleness and regeneration

`check_metadata` and `create_metadata` (repomanager.py lines 112-205).
The external fragment generator is a parameter mapping the package's
content to the fragment archive content, modelled on its success path
(a non-zero exit of createrepo aborts the run and is outside every
claim under study).  Because the blob container is shared, other writers
may act while the external tool runs; `create_metadata_r` exposes that
window as an interference function applied between the initial package
download and the fragment upload, and `create_metadata` is the
interference-free instance. -/

/-- `create_metadata`, with an explicit interference window: download the
package, generate the fragment from it, upload the fragment archive
(overwrite), then read the package's properties a second time and tag
the fragment with that just-read last-modified value. -/
def create_metadata_r (gen : Nat → Nat) (mid : Store → Store) (s : Store) (p : RPath) :
    Except StorageErr (Store × List StorageEvent) := do
  let pb ← getProps s (pathStr p)
  let fragContent := gen pb.content
  let metadataKey := pathStr (withSuffixPath p ".package")
  let s1 := Store.putBlob (mid s) metadataKey fragContent
  let pb2 ← getProps s1 (pathStr p)
  let md := [(METADATA_CHECK_KEY, pb2.lastModified)]
  let s2 := Store.setMetadata s1 metadataKey md
  Except.ok (s2,
    [StorageEvent.put metadataKey fragContent, StorageEvent.setMeta metadataKey md])

/-- `create_metadata` as the synchronizer runs it (no interference). -/
def create_metadata (gen : Nat → Nat) :
    Store → RPath → Except StorageErr (Store × List StorageEvent) :=
  create_metadata_r gen id

/-- `check_metadata`: regenerate when the fragment blob is absent; else
fetch both property sets, regenerate when the fragment lacks the
RpmLastModified tag, regenerate when the tag differs (as a string) from
the package's current last-modified, and otherwise do nothing. -/
def check_metadata (gen : Nat → Nat) (s : Store) (p : RPath) :
    Except StorageErr (Store × List StorageEvent) :=
  let metadataKey := pathStr (withSuffixPath p ".package")
  if Store.existsKey s metadataKey = false then create_metadata gen s p
  else do
    let pb ← getProps s (pathStr p)
    let mb ← getProps s metadataKey
    match tagLookup mb.tags METADATA_CHECK_KEY with
    | none => create_metadata gen s p
    | some tag =>
      if pb.lastModified != tag then create_metadata gen s p
      else Except.ok (s, [])

/-- The specification's three-way staleness check, written as the spec
orders it (first match wins): fragment absent; tag absent; tag differs
from the package's current last-modified, compared as opaque strings. -/
def staleOf (s : Store) (p : RPath) (pkgLM : String) : Bool :=
  match findBlob s.blobs (pathStr (withSuffixPath p ".package")) with
  | none => true
  | some mb =>
    match tagLookup mb.tags METADATA_CHECK_KEY with
    | none => true
    | some tag => pkgLM != tag

/-- Refinement of the staleness protocol: on any store holding the
package, the implementation's check equals regeneration exactly when the
spec's ordered three-way check says Stale, and the Fresh case returns
the store unchanged with an empty mutation trace. -/
theorem check_metadata_eq_ite (gen : Nat → Nat) (s : Store) (p : RPath) (pb : Blob)
    (hb : findBlob s.blobs (pathStr p) = some pb) :
    check_metadata gen s p =
      if staleOf s p pb.lastModified then create_metadata gen s p
      else Except.ok (s, []) := by
  unfold check_metadata staleOf
  cases hf : findBlob s.blobs (pathStr (withSuffixPath p ".package")) with
  | none => simp [Store.existsKey, hf]
  | some mb =>
    simp only [Store.existsKey, hf, Option.isSome_some, getProps, hb, Bind.bind, Except.bind]
    rw [if_neg (by simp)]
    have key : ∀ o : Option String,
        (match o with
          | none => create_metadata gen s p
          | some tag =>
            if (pb.lastModified != tag) = true then create_metadata gen s p
            else Except.ok (s, [])) =
        if (match o with
              | none => true
              | some tag => pb.lastModified != tag) = true then
          create_metadata gen s p
        else Except.ok (s, []) := by
      intro o
      cases o with
      | none => simp
      | some tag => by_cases hlm : (pb.lastModified != tag) = true <;> simp [hlm]
    exact key (tagLookup mb.tags METADATA_CHECK_KEY)

/-! ### Claim C1 — ordered three-way staleness check -/

/-- C1: for a package held by the store, check_metadata regenerates the
fragment exactly when the spec's three conditions — fragment absent; tag
absent; tag differs from the package's current last-modified, compared
as opaque strings, checked in this order with first match winning — say
Stale, and otherwise performs no storage mutation, leaving the store
unchanged with an empty event trace. -/
theorem c1_staleness_three_way_check (gen : Nat → Nat) (s : Store) (p : RPath) (pb : Blob)
    (hb : findBlob s.blobs (pathStr p) = some pb) :
    check_metadata gen s p =
      if staleOf s p pb.lastModified then create_metadata gen s p
      else Except.ok (s, []) :=
  check_metadata_eq_ite gen s p pb hb

/-- Fragment generator used by the concrete scenarios. -/
def exGen : Nat → Nat := fun c => c + 100

/-- Concrete store for the C1 witness: one classified package and no
fragment. -/
def exC1Store : Store :=
  { blobs := [("cm/2/a.rpm", { content := 1, lastModified := "0", tags := [] })], clock := 1 }

/-- C1 witness: the staleness equivalence at a concrete store holding
the package. -/
theorem c1_witness :
    findBlob exC1Store.blobs (pathStr ["cm", "2", "a.rpm"]) =
      some { content := 1, lastModified := "0", tags := [] } ∧
    check_metadata exGen exC1Store ["cm", "2", "a.rpm"] =
      (if staleOf exC1Store ["cm", "2", "a.rpm"] "0" then
        create_metadata exGen exC1Store ["cm", "2", "a.rpm"]
      else Except.ok (exC1Store, [])) :=
  ⟨rfl, c1_staleness_three_way_check exGen exC1Store ["cm", "2", "a.rpm"]
    { content := 1, lastModified := "0", tags := [] } rfl⟩

/-! ### Claim C6 — the fragment tag comes from the post-generation read -/

/-- C6: whatever happens to the store during fragment generation (the
interference window), the RpmLastModified tag written onto the uploaded
fragment is the package's last-modified as read after the fragment
upload — the second read — not the value read before generation started. -/
theorem c6_tag_from_second_read (gen : Nat → Nat) (mid : Store → Store)
    (s : Store) (p : RPath) (pb pb2 : Blob) (st : Store) (tr : List StorageEvent)
    (hb : findBlob s.blobs (pathStr p) = some pb)
    (hb2 : findBlob (Store.putBlob (mid s) (pathStr (withSuffixPath p ".package"))
        (gen pb.content)).blobs (pathStr p) = some pb2)
    (hr : create_metadata_r gen mid s p = Except.ok (st, tr)) :
    tr = [StorageEvent.put (pathStr (withSuffixPath p ".package")) (gen pb.content),
          StorageEvent.setMeta (pathStr (withSuffixPath p ".package"))
            [(METADATA_CHECK_KEY, pb2.lastModified)]] := by
  unfold create_metadata_r at hr
  simp only [getProps, hb, Bind.bind, Except.bind, hb2] at hr
  simp only [Except.ok.injEq, Prod.mk.injEq] at hr
  exact hr.2.symm

/-- Concrete store for the C6 witness. -/
def exC6Store : Store :=
  { blobs := [("cm/2/a.rpm", { content := 1, lastModified := "0", tags := [] })], clock := 5 }

/-- Interference during generation: another writer re-uploads the
package, changing its content and its last-modified stamp. -/
def exC6Mid : Store → Store := fun st => Store.putBlob st "cm/2/a.rpm" 2

/-- Resulting store of the concrete interfered regeneration. -/
def exC6St : Store :=
  match create_metadata_r exGen exC6Mid exC6Store ["cm", "2", "a.rpm"] with
  | Except.ok r => r.1
  | Except.error _ => exC6Store

/-- Resulting trace of the concrete interfered regeneration. -/
def exC6Tr : List StorageEvent :=
  match create_metadata_r exGen exC6Mid exC6Store ["cm", "2", "a.rpm"] with
  | Except.ok r => r.2
  | Except.error _ => []

/-- C6 witness: under interference the tag records the post-generation
last-modified (here 5), which differs from the pre-generation value
(here 0). -/
theorem c6_witness :
    exC6Tr = [StorageEvent.put "cm/2/a.package" 101,
              StorageEvent.setMeta "cm/2/a.package" [(METADATA_CHECK_KEY, "5")]] ∧
    ("5" : String) ≠ "0" := by
  constructor
  · have h := c6_tag_from_second_read exGen exC6Mid exC6Store ["cm", "2", "a.rpm"]
      { content := 1, lastModified := "0", tags := [] }
      { content := 2, lastModified := "5", tags := [] } exC6St exC6Tr rfl rfl rfl
    rw [h]
    decide
  · decide

/-! ### Claim C7 — upload and rejected objects are excluded from scans -/

/-- A blob directly under an upload or a rejected segment is skipped. -/
theorem skip_blob_of_parent {q : RPath}
    (hq : (pathParent q).getLastD "" = "upload" ∨ (pathParent q).getLastD "" = "rejected") :
    skip_blob q = true := by
  have hne : pathParent q ≠ [] := by
    intro h0
    rcases hq with h | h <;> rw [h0] at h <;> exact absurd h (by decide)
  unfold skip_blob
  by_cases hs : fileSuffix (pathName q) = ".rpm"
  · rw [if_neg (by simp [hs])]
    rcases hq with h | h
    · rw [if_pos ⟨hne, h⟩]
    · by_cases hu : (pathParent q).getLastD "" = "upload"
      · rw [if_pos ⟨hne, hu⟩]
      · rw [if_neg (fun hcon => hu hcon.2), if_pos ⟨hne, h⟩]
  · rw [if_pos hs]

/-- C7: an object whose immediate parent segment is upload or rejected
is excluded from the synchronizer's scans: no package handle is created
for it, and its parent directory never enters the merge path set. -/
theorem c7_scan_excludes_upload_rejected (s : Store) (k : String)
    (hk : (pathParent (pathOfString k)).getLastD "" = "upload" ∨
          (pathParent (pathOfString k)).getLastD "" = "rejected") :
    (∀ h ∈ list_all_packages s, h.path ≠ pathOfString k) ∧
    pathParent (pathOfString k) ∉ list_all_package_paths s := by
  constructor
  · intro h hmem heq
    obtain ⟨k', hk', hsome⟩ := List.mem_filterMap.mp hmem
    by_cases hskip : skip_blob (pathOfString k') = true
    · simp [hskip] at hsome
    · simp [hskip] at hsome
      subst hsome
      apply hskip
      have hsb := skip_blob_of_parent hk
      rw [show pathOfString k' = pathOfString k from heq]
      exact hsb
  · intro hmem
    have hmem' := List.mem_dedup.mp hmem
    obtain ⟨k', hk', hsome⟩ := List.mem_filterMap.mp hmem'
    by_cases hskip : skip_blob (pathOfString k') = true
    · simp [hskip] at hsome
    · simp [hskip] at hsome
      apply hskip
      apply skip_blob_of_parent
      rw [hsome]
      exact hk

/-- Concrete store for the C7 witness: one pending upload, one rejected
object, one classified package. -/
def exC7Store : Store :=
  { blobs := [("upload/b.rpm", { content := 3, lastModified := "0", tags := [] }),
              ("rejected/c.rpm", { content := 4, lastModified := "0", tags := [] }),
              ("cm/2/a.rpm", { content := 1, lastModified := "0", tags := [] })],
    clock := 1 }

/-- C7 witness: the pending upload object is excluded from both scans of
the concrete store. -/
theorem c7_witness :
    ((pathParent (pathOfString "upload/b.rpm")).getLastD "" = "upload" ∨
      (pathParent (pathOfString "upload/b.rpm")).getLastD "" = "rejected") ∧
    (∀ h ∈ list_all_packages exC7Store, h.path ≠ pathOfString "upload/b.rpm") ∧
    pathParent (pathOfString "upload/b.rpm") ∉ list_all_package_paths exC7Store :=
  ⟨Or.inl (by decide),
    (c7_scan_excludes_upload_rejected exC7Store "upload/b.rpm" (Or.inl (by decide))).1,
    (c7_scan_excludes_upload_rejected exC7Store "upload/b.rpm" (Or.inl (by decide))).2⟩

/-! ### Synchronizer — directory reconciliation (merge)

`merge_metadata` (repomanager.py lines 207-328): download and extract
every fragment under the directory, merge them with the external tool,
upload every produced file under the repodata prefix (overwrite), then
delete every previously published basename not in the produced set.
The merger parameter is the external mergerepo tool on its success path,
mapping the fragment contents, in listing order, to the produced files
(basename and content). -/

/-- Fragment archives feeding the merge of a directory: contents of the
blobs under the directory's prefix (no prefix for the root path) whose
names end in the fragment extension, in listing order. -/
def mergeInputs (s : Store) (q : RPath) : List Nat :=
  let pre : Option String := if q = [] then none else some (pathStr q)
  ((Store.listKeys s pre).filter
      (fun k => fileSuffix (pathName (pathOfString k)) == ".package")).filterMap
    (fun k => (findBlob s.blobs k).map (fun b => b.content))

/-- Basenames of the blobs currently published under the directory's
repodata prefix (the Python set is modelled as a deduplicated list). -/
def existingMergedNames (s : Store) (q : RPath) : List String :=
  ((Store.listKeys s (some (pathStr (q ++ ["repodata"])))).map
    (fun k => pathName (pathOfString k))).dedup

/-- The merge step of the synchronizer. -/
def merge_metadata (merger : List Nat → List (String × Nat)) (s : Store) (q : RPath) :
    Except StorageErr (Store × List StorageEvent) :=
  let newFiles := merger (mergeInputs s q)
  let existing := existingMergedNames s q
  let newNames := newFiles.map Prod.fst
  let toDelete := existing.filter (fun n => decide (n ∉ newNames))
  let up := newFiles.foldl (fun acc f =>
      (Store.putBlob acc.1 (pathStr (q ++ ["repodata", f.1])) f.2,
       acc.2 ++ [StorageEvent.put (pathStr (q ++ ["repodata", f.1])) f.2])) (s, [])
  let del := toDelete.foldl (fun acc n =>
      (Store.delBlob acc.1 (pathStr (q ++ ["repodata", n])),
       acc.2 ++ [StorageEvent.delete (pathStr (q ++ ["repodata", n]))])) (up.1, [])
  Except.ok (del.1, up.2 ++ del.2)

/-- Store after the merge's upload pass. -/
def mergedUploadsState (merger : List Nat → List (String × Nat)) (s : Store) (q : RPath) :
    Store :=
  (merger (mergeInputs s q)).foldl
    (fun st f => Store.putBlob st (pathStr (q ++ ["repodata", f.1])) f.2) s

/-- Store after the merge's upload and deletion passes. -/
def mergedFinalState (merger : List Nat → List (String × Nat)) (s : Store) (q : RPath) :
    Store :=
  ((existingMergedNames s q).filter
      (fun n => decide (n ∉ (merger (mergeInputs s q)).map Prod.fst))).foldl
    (fun st n => Store.delBlob st (pathStr (q ++ ["repodata", n])))
    (mergedUploadsState merger s q)

/-- Unrolling of the upload fold: final store and appended put events. -/
theorem upload_fold_trace (q : RPath) (xs : List (String × Nat)) :
    ∀ (s : Store) (evs : List StorageEvent),
      xs.foldl (fun acc f =>
        (Store.putBlob acc.1 (pathStr (q ++ ["repodata", f.1])) f.2,
         acc.2 ++ [StorageEvent.put (pathStr (q ++ ["repodata", f.1])) f.2])) (s, evs) =
      (xs.foldl (fun st f => Store.putBlob st (pathStr (q ++ ["repodata", f.1])) f.2) s,
       evs ++ xs.map (fun f => StorageEvent.put (pathStr (q ++ ["repodata", f.1])) f.2)) := by
  induction xs with
  | nil => intro s evs; simp
  | cons a as ih => intro s evs; simp [ih]

/-- Unrolling of the deletion fold: final store and appended delete
events. -/
theorem delete_fold_trace (q : RPath) (xs : List String) :
    ∀ (s : Store) (evs : List StorageEvent),
      xs.foldl (fun acc n =>
        (Store.delBlob acc.1 (pathStr (q ++ ["repodata", n])),
         acc.2 ++ [StorageEvent.delete (pathStr (q ++ ["repodata", n]))])) (s, evs) =
      (xs.foldl (fun st n => Store.delBlob st (pathStr (q ++ ["repodata", n]))) s,
       evs ++ xs.map (fun n => StorageEvent.delete (pathStr (q ++ ["repodata", n])))) := by
  induction xs with
  | nil => intro s evs; simp
  | cons a as ih => intro s evs; simp [ih]

/-- Full characterization of the merge step: it always succeeds, its
trace is the uploads of every produced file followed by the deletions of
the previously published basenames missing from the produced set, and
its final store applies exactly those operations in that order. -/
theorem merge_metadata_eq (merger : List Nat → List (String × Nat)) (s : Store) (q : RPath) :
    merge_metadata merger s q =
      Except.ok (mergedFinalState merger s q,
        (merger (mergeInputs s q)).map
            (fun f => StorageEvent.put (pathStr (q ++ ["repodata", f.1])) f.2) ++
        ((existingMergedNames s q).filter
            (fun n => decide (n ∉ (merger (mergeInputs s q)).map Prod.fst))).map
            (fun n => StorageEvent.delete (pathStr (q ++ ["repodata", n])))) := by
  unfold merge_metadata mergedFinalState mergedUploadsState
  simp only [upload_fold_trace, delete_fold_trace]
  simp

/-- C2: for every reconciled directory, letting N be the files the merge
tool produced and E the basenames already published under the repodata
prefix, the mutation trace is exactly the uploads of every member of N
(with overwrite) followed by the deletions of every member of E not in
N — so all uploads happen before any deletion. -/
theorem c2_merge_uploads_before_deletes (merger : List Nat → List (String × Nat))
    (s : Store) (q : RPath) :
    (merge_metadata merger s q).map Prod.snd =
      Except.ok
        ((merger (mergeInputs s q)).map
            (fun f => StorageEvent.put (pathStr (q ++ ["repodata", f.1])) f.2) ++
         ((existingMergedNames s q).filter
            (fun n => decide (n ∉ (merger (mergeInputs s q)).map Prod.fst))).map
            (fun n => StorageEvent.delete (pathStr (q ++ ["repodata", n])))) := by
  rw [merge_metadata_eq]
  rfl

/-! ### Organiser (AzureOrganiserMixin, organiser.py lines 67-117)

The organiser lists the uploads, classifies each package via the path
policy, and relocates it, catching only the destination-exists error.
The path policy parameter stands for the mixin's get_path. -/

/-- AzureOrganiserMixin.list_uploads: every blob under the upload prefix
whose name ends in the package extension, as a fresh remote handle. -/
def list_uploads (s : Store) (uploadDir : RPath) : List RemoteRpmPackage :=
  (Store.listKeys s (some (pathStr uploadDir))).filterMap (fun k =>
    if fileSuffix (pathName (pathOfString k)) = ".rpm" then
      some { path := pathOfString k, localPackage := none }
    else none)

/-- One iteration of AzureOrganiserMixin.organise: read the package's
identity (downloading on first access), compute the canonical path, and
move; a FileExistsError is logged and skipped, every other error
propagates. -/
def organiseStep (parse : Nat → RawHeaders) (policy : PackageInfo → RPath)
    (acc : Store × List StorageEvent) (h : RemoteRpmPackage) :
    Except StorageErr (Store × List StorageEvent) := do
  let r ← h.getPackage parse acc.1
  let target := pathStr (policy r.1)
  match r.2.1.move acc.1 target with
  | Except.error (StorageErr.fileExists _) => Except.ok acc
  | Except.error e => Except.error e
  | Except.ok m => Except.ok (m.1, acc.2 ++ m.2.2)

/-- AzureOrganiserMixin.organise: fold the step over the uploads. -/
def organise (parse : Nat → RawHeaders) (policy : PackageInfo → RPath)
    (uploadDir : RPath) (s : Store) : Except StorageErr (Store × List StorageEvent) :=
  (list_uploads s uploadDir).foldlM (organiseStep parse policy) (s, [])

/-! ### Claim C8 — occupied destination is skipped, not fatal -/

/-- C8: when an uploaded package's canonical destination already exists,
the organise step catches the destination-exists error: the store is
returned unchanged (destination untouched, source neither deleted nor
moved), no event is emitted, and the fold continues with the remaining
uploaded packages exactly as if the colliding package were absent. -/
theorem c8_destination_exists_skips (parse : Nat → RawHeaders)
    (policy : PackageInfo → RPath) (s : Store) (evs : List StorageEvent)
    (h : RemoteRpmPackage) (b : Blob) (rest : List RemoteRpmPackage)
    (hcache : h.localPackage = none)
    (hb : findBlob s.blobs (pathStr h.path) = some b)
    (hdest : Store.existsKey s (pathStr (policy (packageInfo (parse b.content)))) = true) :
    organiseStep parse policy (s, evs) h = Except.ok (s, evs) ∧
    List.foldlM (organiseStep parse policy) (s, evs) (h :: rest) =
      List.foldlM (organiseStep parse policy) (s, evs) rest := by
  have hstep : organiseStep parse policy (s, evs) h = Except.ok (s, evs) := by
    unfold organiseStep RemoteRpmPackage.getPackage
    simp only [hcache, hb, Bind.bind, Except.bind]
    unfold RemoteRpmPackage.move
    simp only [hdest, if_pos]
  refine ⟨hstep, ?_⟩
  simp [List.foldlM_cons, hstep, Bind.bind, Except.bind]

/-- Header parser for the concrete scenarios: content 1 is the cm2
package, anything else a tagless package. -/
def exParse : Nat → RawHeaders := fun c =>
  if c = 1 then { name := "a", version := "1.0", release := "1.cm2", arch := "x86_64" }
  else { name := "z", version := "9", release := "1", arch := "noarch" }

/-- Concrete store for the C8 witness: the upload and an occupied
canonical destination. -/
def exC8Store : Store :=
  { blobs := [("upload/a-1.0-1.cm2.x86_64.rpm", { content := 1, lastModified := "0", tags := [] }),
              ("cm/2/a-1.0-1.cm2.x86_64.rpm", { content := 9, lastModified := "0", tags := [] })],
    clock := 1 }

/-- C8 witness: the colliding upload is skipped with no mutation and the
fold continues. -/
theorem c8_witness :
    organiseStep exParse (get_path []) (exC8Store, [])
        { path := pathOfString "upload/a-1.0-1.cm2.x86_64.rpm", localPackage := none } =
      Except.ok (exC8Store, []) ∧
    List.foldlM (organiseStep exParse (get_path [])) (exC8Store, [])
        [{ path := pathOfString "upload/a-1.0-1.cm2.x86_64.rpm", localPackage := none }] =
      List.foldlM (organiseStep exParse (get_path [])) (exC8Store, []) [] :=
  c8_destination_exists_skips exParse (get_path []) exC8Store []
    { path := pathOfString "upload/a-1.0-1.cm2.x86_64.rpm", localPackage := none }
    { content := 1, lastModified := "0", tags := [] } [] rfl rfl rfl

/-! ### Top-level orchestration

`AzureBaseRepository.process` (repomanager.py lines 40-56), instantiated
as the distribution repository with the default upload directory, as the
function app constructs it: organise the uploads, refresh stale
fragments for every scanned package, then reconcile every scanned
directory. -/

/-- The per-package staleness pass of process. -/
def checkPhase (gen : Nat → Nat) (s : Store) (pkgs : List RemoteRpmPackage) :
    Except StorageErr (Store × List StorageEvent) :=
  pkgs.foldlM (fun acc h => do
    let r ← check_metadata gen acc.1 h.path
    Except.ok (r.1, acc.2 ++ r.2)) (s, [])

/-- The per-directory merge pass of process. -/
def mergePhase (merger : List Nat → List (String × Nat)) (s : Store)
    (paths : List RPath) : Except StorageErr (Store × List StorageEvent) :=
  paths.foldlM (fun acc q => do
    let r ← merge_metadata merger acc.1 q
    Except.ok (r.1, acc.2 ++ r.2)) (s, [])

/-- AzureBaseRepository.process. -/
def process (parse : Nat → RawHeaders) (gen : Nat → Nat)
    (merger : List Nat → List (String × Nat)) (s : Store) :
    Except StorageErr (Store × List StorageEvent) := do
  let o ← organise parse (get_path []) ["upload"] s
  let c ← checkPhase gen o.1 (list_all_packages o.1)
  let m ← mergePhase merger c.1 (list_all_package_paths c.1)
  Except.ok (m.1, (o.2 ++ c.2) ++ m.2)

/-! ### Claim C3 — idempotence of process -/

/-- Merge tool for the concrete scenarios: one merged index file whose
content sums the fragment contents. -/
def exMerger : List Nat → List (String × Nat) :=
  fun cs => [("repomd.xml", cs.foldl (fun a b => a + b) 0)]

/-- Initial store of the idempotence scenario: a single pending upload. -/
def exC3Start : Store :=
  { blobs := [("upload/a-1.0-1.cm2.x86_64.rpm",
      { content := 1, lastModified := "0", tags := [] })],
    clock := 1 }

/-- Store after the first completed process run. -/
def exC3Mid : Store :=
  match process exParse exGen exMerger exC3Start with
  | Except.ok r => r.1
  | Except.error _ => exC3Start

/-- Recognizer of put events. -/
def eventIsPut : StorageEvent → Bool
  | StorageEvent.put _ _ => true
  | _ => false

/-- C3 counterexample: after a completed process run with no external
changes, a second process run still performs storage mutations — its
trace contains a put (the merge step re-uploads the merged index). -/
theorem c3_counterexample :
    (process exParse exGen exMerger exC3Start).map Prod.fst = Except.ok exC3Mid ∧
    (process exParse exGen exMerger exC3Mid).map (fun r => r.2.any eventIsPut) =
      Except.ok true := by
  exact ⟨rfl, rfl⟩

/-- Decidable freshness: every scanned package exists and its fragment
passes the three-way staleness check. -/
def allFresh (s : Store) : Bool :=
  (list_all_packages s).all (fun h =>
    match findBlob s.blobs (pathStr h.path) with
    | some pb => !staleOf s h.path pb.lastModified
    | none => false)

/-- Unpack allFresh into per-package freshness facts. -/
theorem allFresh_spec {s : Store} (hf : allFresh s = true) :
    ∀ h ∈ list_all_packages s, ∃ pb, findBlob s.blobs (pathStr h.path) = some pb ∧
      staleOf s h.path pb.lastModified = false := by
  intro h hmem
  have hone := List.all_eq_true.mp hf h hmem
  cases hfb : findBlob s.blobs (pathStr h.path) with
  | none => rw [hfb] at hone; simp at hone
  | some pb =>
    rw [hfb] at hone
    simp only [Bool.not_eq_true'] at hone
    exact ⟨pb, rfl, hone⟩

/-- Decidable condition on a merge pass: at every directory, every
currently published basename is among the names the merge will produce
(so the pass deletes nothing), threading the state the merge produces. -/
def noObsoleteRun (merger : List Nat → List (String × Nat)) : Store → List RPath → Bool
  | _, [] => true
  | s, q :: qs =>
    ((existingMergedNames s q).all
        (fun n => decide (n ∈ (merger (mergeInputs s q)).map Prod.fst))) &&
    noObsoleteRun merger (mergedFinalState merger s q) qs

/-- A staleness pass over fresh packages leaves the store untouched and
emits no events. -/
theorem checkFold_fresh (gen : Nat → Nat) (s : Store) :
    ∀ (pkgs : List RemoteRpmPackage) (evs : List StorageEvent),
      (∀ h ∈ pkgs, ∃ pb, findBlob s.blobs (pathStr h.path) = some pb ∧
          staleOf s h.path pb.lastModified = false) →
      pkgs.foldlM (fun acc h => do
          let r ← check_metadata gen acc.1 h.path
          Except.ok (r.1, acc.2 ++ r.2)) (s, evs) = Except.ok (s, evs) := by
  intro pkgs
  induction pkgs with
  | nil => intro evs _; rfl
  | cons a as ih =>
    intro evs hall
    obtain ⟨pb, hpb, hstale⟩ := hall a (List.mem_cons_self a as)
    have hchk : check_metadata gen s a.path = Except.ok (s, []) := by
      rw [check_metadata_eq_ite gen s a.path pb hpb, hstale]
      simp
    rw [List.foldlM_cons]
    simp only [hchk, Bind.bind, Except.bind, List.append_nil]
    exact ih evs (fun h hm => hall h (List.mem_cons_of_mem a hm))

/-- A merge pass along which nothing is obsolete succeeds and appends
only merged-index put events for the visited directories. -/
theorem mergeFold_no_obsolete (merger : List Nat → List (String × Nat)) :
    ∀ (paths : List RPath) (s : Store) (evs : List StorageEvent),
      noObsoleteRun merger s paths = true →
      ∃ st tr,
        paths.foldlM (fun acc q => do
            let r ← merge_metadata merger acc.1 q
            Except.ok (r.1, acc.2 ++ r.2)) (s, evs) = Except.ok (st, tr) ∧
        ∀ e ∈ tr, e ∈ evs ∨ ∃ q n c, q ∈ paths ∧
          e = StorageEvent.put (pathStr (q ++ ["repodata", n])) c := by
  intro paths
  induction paths with
  | nil =>
    intro s evs _
    exact ⟨s, evs, rfl, fun e he => Or.inl he⟩
  | cons q qs ih =>
    intro s evs hno
    simp only [noObsoleteRun, Bool.and_eq_true] at hno
    have hfilter : (existingMergedNames s q).filter
        (fun n => decide (n ∉ (merger (mergeInputs s q)).map Prod.fst)) = [] := by
      apply List.filter_eq_nil_iff.mpr
      intro n hn
      have hin := List.all_eq_true.mp hno.1 n hn
      simp only [decide_eq_true_eq] at hin
      simp [hin]
    obtain ⟨st, tr, hfold, hall⟩ := ih (mergedFinalState merger s q)
      (evs ++ (merger (mergeInputs s q)).map
        (fun f => StorageEvent.put (pathStr (q ++ ["repodata", f.1])) f.2)) hno.2
    refine ⟨st, tr, ?_, ?_⟩
    · rw [List.foldlM_cons]
      rw [merge_metadata_eq merger s q, hfilter]
      simp only [List.map_nil, List.append_nil]
      exact hfold
    · intro e he
      rcases hall e he with hin | ⟨q', n, c, hq', heq⟩
      · rcases List.mem_append.mp hin with h1 | h2
        · exact Or.inl h1
        · obtain ⟨f, hf, hfe⟩ := List.mem_map.mp h2
          exact Or.inr ⟨q, f.1, f.2, List.mem_cons_self q qs, hfe.symm⟩
      · exact Or.inr ⟨q', n, c, List.mem_cons_of_mem q hq', heq⟩

/-- C3 (amended): re-running process after a run that left no pending
uploads, only fresh fragments, and no obsolete published index names,
performs no deletion, no copy and no tag write and regenerates no
fragment: every mutation of the second run is a put re-uploading a
merged-index file under the repodata prefix of a scanned directory. -/
theorem c3_amended_second_run_only_merge_puts (parse : Nat → RawHeaders)
    (gen : Nat → Nat) (merger : List Nat → List (String × Nat)) (s : Store)
    (st : Store) (tr : List StorageEvent)
    (hup : list_uploads s ["upload"] = [])
    (hfresh : allFresh s = true)
    (hmerge : noObsoleteRun merger s (list_all_package_paths s) = true)
    (hr : process parse gen merger s = Except.ok (st, tr)) :
    ∀ e ∈ tr, ∃ q n c, q ∈ list_all_package_paths s ∧
      e = StorageEvent.put (pathStr (q ++ ["repodata", n])) c := by
  have horg : organise parse (get_path []) ["upload"] s = Except.ok (s, []) := by
    unfold organise
    rw [hup]
    rfl
  have hchk : checkPhase gen s (list_all_packages s) = Except.ok (s, []) := by
    unfold checkPhase
    exact checkFold_fresh gen s _ [] (allFresh_spec hfresh)
  obtain ⟨st0, tr0, hfold, hall⟩ := mergeFold_no_obsolete merger
    (list_all_package_paths s) s [] hmerge
  have hmp : mergePhase merger s (list_all_package_paths s) = Except.ok (st0, tr0) := by
    unfold mergePhase
    exact hfold
  unfold process at hr
  rw [horg] at hr
  simp only [Bind.bind, Except.bind] at hr
  rw [hchk] at hr
  simp only [hmp] at hr
  simp only [Except.ok.injEq, Prod.mk.injEq, List.nil_append] at hr
  intro e he
  rw [← hr.2] at he
  rcases hall e he with hin | hout
  · cases hin
  · exact hout

/-- Store after the second process run of the idempotence scenario. -/
def exC3End : Store :=
  match process exParse exGen exMerger exC3Mid with
  | Except.ok r => r.1
  | Except.error _ => exC3Mid

/-- Trace of the second process run of the idempotence scenario. -/
def exC3Tr2 : List StorageEvent :=
  match process exParse exGen exMerger exC3Mid with
  | Except.ok r => r.2
  | Except.error _ => []

/-- C3 witness: the post-first-run store satisfies the amended claim's
hypotheses, and every event of the second run is a merged-index put. -/
theorem c3_amended_witness :
    list_uploads exC3Mid ["upload"] = [] ∧
    allFresh exC3Mid = true ∧
    noObsoleteRun exMerger exC3Mid (list_all_package_paths exC3Mid) = true ∧
    (∀ e ∈ exC3Tr2, ∃ q n c, q ∈ list_all_package_paths exC3Mid ∧
      e = StorageEvent.put (pathStr (q ++ ["repodata", n])) c) :=
  ⟨rfl, rfl, rfl,
    c3_amended_second_run_only_merge_puts exParse exGen exMerger exC3Mid
      exC3End exC3Tr2 rfl rfl rfl rfl⟩

/-! ### Local filesystem organiser

`LocalRpmPackage.move` (rpmpackage.py lines 131-137) and
`LocalOrganiserMixin.organise` (organiser.py lines 39-64).  The local
move is pathlib Path.rename, whose POSIX semantics (os.rename, the
semantics on the Linux platform this function app targets) silently
replaces an existing destination file; it fails when the destination's
parent directory does not exist.  The filesystem is modelled as a map
from path strings to contents plus the set of existing directories. -/

/-- A local filesystem: files (name to content) and directories. -/
structure LocalFS where
  files : List (String × Nat)
  dirs : List String
deriving DecidableEq

/-- Errors of the local filesystem model. -/
inductive FsErr where
  | noSuchFile (p : String)
deriving DecidableEq

/-- Association-list lookup of a file by name. -/
def findFile : List (String × Nat) → String → Option Nat
  | [], _ => none
  | kv :: rest, k => if kv.1 = k then some kv.2 else findFile rest k

/-- mkdir(parents=True, exist_ok=True): ensure every ancestor directory
of the given directory exists. -/
def mkdirAll (fs : LocalFS) (d : RPath) : LocalFS :=
  let extra := ((List.range d.length).map (fun i => pathStr (d.take (i + 1)))).filter
    (fun x => decide (x ∉ fs.dirs))
  LocalFS.mk fs.files (fs.dirs ++ extra)

/-- Path.rename with POSIX semantics: the source must exist, the
destination's parent directory must exist, and any existing file at the
destination is silently replaced. -/
def localRename (fs : LocalFS) (oldP newP : RPath) : Except FsErr LocalFS :=
  match findFile fs.files (pathStr oldP) with
  | none => Except.error (FsErr.noSuchFile (pathStr oldP))
  | some c =>
    if pathParent newP = [] ∨ pathStr (pathParent newP) ∈ fs.dirs then
      let files' := fs.files.filter
        (fun kv => kv.1 != pathStr oldP && kv.1 != pathStr newP) ++ [(pathStr newP, c)]
      Except.ok (LocalFS.mk files' fs.dirs)
    else Except.error (FsErr.noSuchFile (pathStr (pathParent newP)))

/-- A local package handle: its path and the identity parsed at
construction (LocalRpmPackage.__init__). -/
structure LocalRpmPackage where
  path : RPath
  info : PackageInfo
deriving DecidableEq

/-- LocalOrganiserMixin.list_uploads: packages directly under the upload
directory whose names end in the package extension. -/
def local_list_uploads (parse : Nat → RawHeaders) (fs : LocalFS) (root : RPath) :
    List LocalRpmPackage :=
  fs.files.filterMap (fun kv =>
    let p := pathOfString kv.1
    if pathParent p = root ++ ["upload"] ∧ fileSuffix (pathName p) = ".rpm" then
      some (LocalRpmPackage.mk p (packageInfo (parse kv.2)))
    else none)

/-- One iteration of LocalOrganiserMixin.organise: classify, create the
destination's parent directories, then rename the package there. -/
def local_organise_step (policy : PackageInfo → RPath) (fs : LocalFS)
    (pkg : LocalRpmPackage) : Except FsErr LocalFS :=
  let target := policy pkg.info
  let fs1 := mkdirAll fs (pathParent target)
  localRename fs1 pkg.path target

/-- LocalOrganiserMixin.organise. -/
def local_organise (parse : Nat → RawHeaders) (policy : PackageInfo → RPath)
    (root : RPath) (fs : LocalFS) : Except FsErr LocalFS :=
  (local_list_uploads parse fs root).foldlM (local_organise_step policy) fs

/-! ### Claim C9 — local move semantics -/

/-- mkdir with parents creates the directory itself. -/
theorem mkdirAll_has_parent (fs : LocalFS) (d : RPath) (hd : d ≠ []) :
    pathStr d ∈ (mkdirAll fs d).dirs := by
  unfold mkdirAll
  by_cases hmem : pathStr d ∈ fs.dirs
  · exact List.mem_append.mpr (Or.inl hmem)
  · apply List.mem_append.mpr
    right
    apply List.mem_filter.mpr
    refine ⟨?_, by simp [hmem]⟩
    apply List.mem_map.mpr
    refine ⟨d.length - 1, List.mem_range.mpr ?_, ?_⟩
    · have : 0 < d.length := List.length_pos.mpr hd
      omega
    · have h1 : d.length - 1 + 1 = d.length := by
        have : 0 < d.length := List.length_pos.mpr hd
        omega
      rw [h1, List.take_length]

/-- C9 (amended): the local organise step creates the destination's
parent directories and then renames; the rename succeeds even when a
file already exists at the destination, silently replacing it (POSIX
rename) — no destination-exists error is raised, the source name is
removed and the destination maps to the moved content. -/
theorem c9_local_move_replaces (policy : PackageInfo → RPath) (fs : LocalFS)
    (pkg : LocalRpmPackage) (c : Nat)
    (hsrc : findFile fs.files (pathStr pkg.path) = some c) :
    local_organise_step policy fs pkg =
      Except.ok (LocalFS.mk
        (fs.files.filter (fun kv =>
          kv.1 != pathStr pkg.path && kv.1 != pathStr (policy pkg.info)) ++
          [(pathStr (policy pkg.info), c)])
        ((mkdirAll fs (pathParent (policy pkg.info))).dirs)) := by
  have hg : pathParent (policy pkg.info) = [] ∨
      pathStr (pathParent (policy pkg.info)) ∈
        (mkdirAll fs (pathParent (policy pkg.info))).dirs := by
    by_cases hp : pathParent (policy pkg.info) = []
    · exact Or.inl hp
    · exact Or.inr (mkdirAll_has_parent fs _ hp)
  have hfiles : (mkdirAll fs (pathParent (policy pkg.info))).files = fs.files := rfl
  simp only [local_organise_step, localRename]
  rw [hfiles, hsrc]
  simp [hg]

/-- Concrete local filesystem for C9: one pending upload and an existing
file at the canonical destination. -/
def exC9FS : LocalFS :=
  LocalFS.mk
    [("upload/a-1.0-1.cm2.x86_64.rpm", 1), ("cm/2/a-1.0-1.cm2.x86_64.rpm", 5)]
    ["upload"]

/-- Result of organising the concrete local filesystem. -/
def exC9Res : LocalFS :=
  match local_organise exParse (get_path []) [] exC9FS with
  | Except.ok r => r
  | Except.error _ => exC9FS

/-- C9 counterexample: the destination already holds a file, yet
organise completes without error — the rename silently replaces the
destination (content 5 becomes content 1) and removes the source, so no
fatal destination-exists error propagates. -/
theorem c9_counterexample :
    findFile exC9FS.files "cm/2/a-1.0-1.cm2.x86_64.rpm" = some 5 ∧
    local_organise exParse (get_path []) [] exC9FS = Except.ok exC9Res ∧
    findFile exC9Res.files "cm/2/a-1.0-1.cm2.x86_64.rpm" = some 1 ∧
    findFile exC9Res.files "upload/a-1.0-1.cm2.x86_64.rpm" = none :=
  ⟨rfl, rfl, rfl, rfl⟩

/-- C9 witness: the amended step semantics at the concrete filesystem. -/
theorem c9_amended_witness :
    findFile exC9FS.files
        (pathStr (pathOfString "upload/a-1.0-1.cm2.x86_64.rpm")) = some 1 ∧
    local_organise_step (get_path []) exC9FS
        (LocalRpmPackage.mk (pathOfString "upload/a-1.0-1.cm2.x86_64.rpm")
          (packageInfo (exParse 1))) =
      Except.ok (LocalFS.mk
        (exC9FS.files.filter (fun kv =>
          kv.1 != pathStr (pathOfString "upload/a-1.0-1.cm2.x86_64.rpm") &&
          kv.1 != pathStr (get_path [] (packageInfo (exParse 1)))) ++
          [(pathStr (get_path [] (packageInfo (exParse 1))), 1)])
        ((mkdirAll exC9FS
          (pathParent (get_path [] (packageInfo (exParse 1))))).dirs)) :=
  ⟨rfl, c9_local_move_replaces (get_path []) exC9FS
    (LocalRpmPackage.mk (pathOfString "upload/a-1.0-1.cm2.x86_64.rpm")
      (packageInfo (exParse 1))) 1 rfl⟩
